import Mathlib

/-!
Verification of the grpcauth authority component: a shallow embedding of
`authority.go` and `errors.go`, with theorems about the
authenticate-and-authorize pipeline, its two interceptors, the default and
NoPermissions permission strategies, and the error payloads.
-/

namespace GrpcAuth

/-- Go errors are modelled by their message string. -/
abbrev GoError := String

/-- The two gRPC status codes this package emits (`codes.Unauthenticated`,
`codes.PermissionDenied`). -/
inductive Code where
  | Unauthenticated
  | PermissionDenied
  deriving DecidableEq, Repr

/-- A gRPC status error as built by `status.Errorf(code, msg)`. -/
structure StatusError where
  code : Code
  message : String
  deriving DecidableEq, Repr

/-! Model of `fmt.Sprintf(format)` with no arguments, as performed inside
`status.Errorf(code, format)` (which is `status.Error(code,
fmt.Sprintf(format, a...))` with an empty `a`). The scan follows fmt's
`doPrintf` specialized to zero arguments: literal text is copied; after a
percent the flags, argument index, width and precision are scanned; a
literal `%%` emits a percent; every other verb reports a missing argument
(`%!v(MISSING)`) or, after a bracketed index (never valid with no
arguments), a bad index (`%!v(BADINDEX)`); a missing verb emits
`%!(NOVERB)`; a starred width or precision (which would consume an
argument) emits `%!(BADWIDTH)` or `%!(BADPREC)`. -/

/-- `parsenum` from fmt: consumes leading ASCII digits into a number; a
number growing past 1e6 (fmt's `tooLarge`) aborts, consuming to the end of
the format with no number reported. Returns (value, sawNumber, rest). -/
def goParsenum : List Char → Nat → Bool → Nat × Bool × List Char
  | [], num, isnum => (num, isnum, [])
  | c :: rest, num, isnum =>
    if '0' ≤ c ∧ c ≤ '9' then
      if num > 1000000 then (0, false, [])
      else goParsenum rest (num * 10 + (c.toNat - 48)) true
    else (num, isnum, c :: rest)

/-- The flag scan of fmt's `doPrintf` (the fast path is dead with zero
arguments): consume any run of the flag characters. -/
def goConsumeFlags : List Char → List Char
  | [] => []
  | c :: rest =>
    if c = '#' ∨ c = '0' ∨ c = '+' ∨ c = '-' ∨ c = ' ' then goConsumeFlags rest
    else c :: rest

/-- `parseArgNumber` from fmt, reduced to how far the scan advances past an
opening bracket: the whole bracketed index when a closing bracket exists and
at least three characters remain, otherwise just the bracket. -/
def goParseArgNumberSkip (l : List Char) : Nat :=
  if l.length < 3 then 1
  else
    match (l.drop 1).findIdx? (fun c => c = ']') with
    | some j => j + 2
    | none => 1

/-- `argNumber` from fmt with zero arguments: a bracketed argument index is
skipped and can never be valid, so the caller clears goodArgNum whenever the
returned flag reports a bracket. Returns (bracketSeen, rest). -/
def goArgNumber (l : List Char) : Bool × List Char :=
  if l.head? = some '[' then (true, l.drop (goParseArgNumberSkip l))
  else (false, l)

/-- The width scan of `doPrintf` with zero arguments: a star consumes a
missing argument (emitting `%!(BADWIDTH)` and clearing afterIndex), digits
are parsed and clear goodArgNum when they follow a bracketed index. Takes
and returns (emitted, goodArgNum, afterIndex, rest). -/
def goScanWidth (good afterIndex : Bool) (l : List Char) :
    String × Bool × Bool × List Char :=
  if l.head? = some '*' then ("%!(BADWIDTH)", good, false, l.tail)
  else
    ("", good && !(afterIndex && (goParsenum l 0 false).2.1), afterIndex,
      (goParsenum l 0 false).2.2)

/-- The precision scan of `doPrintf` with zero arguments, entered only when
a dot is followed by at least one character: a dot after a bracketed index
clears goodArgNum, then another argument index may follow, then a star
(emitting `%!(BADPREC)`) or digits. -/
def goScanPrec (good afterIndex : Bool) (l : List Char) :
    String × Bool × Bool × List Char :=
  if l.head? = some '.' ∧ l.tail ≠ [] then
    if (goArgNumber l.tail).2.head? = some '*' then
      ("%!(BADPREC)", (if afterIndex then false else good) && !(goArgNumber l.tail).1,
        false, (goArgNumber l.tail).2.tail)
    else
      ("", (if afterIndex then false else good) && !(goArgNumber l.tail).1,
        (goArgNumber l.tail).1, (goParsenum (goArgNumber l.tail).2 0 false).2.2)
  else ("", good, afterIndex, l)

/-- The verb of `doPrintf` with zero arguments: an exhausted format emits
`%!(NOVERB)`; a percent verb emits a percent; any other verb reports
`%!v(MISSING)` when the argument index was well-formed and `%!v(BADINDEX)`
otherwise. -/
def goVerbEmit (good : Bool) (l : List Char) : String × List Char :=
  match l with
  | [] => ("%!(NOVERB)", [])
  | v :: rest =>
    if v = '%' then ("%", rest)
    else if good then ("%!" ++ String.singleton v ++ "(MISSING)", rest)
    else ("%!" ++ String.singleton v ++ "(BADINDEX)", rest)

/-- The final argument index (scanned unless one was already consumed) and
the verb of `doPrintf` with zero arguments. -/
def goScanVerb (good afterIndex : Bool) (l : List Char) : String × List Char :=
  if afterIndex then goVerbEmit good l
  else goVerbEmit (good && !(goArgNumber l).1) (goArgNumber l).2

/-- One verb of `doPrintf` with zero arguments, given the characters after
the percent: flags, argument index, width, precision, then the verb.
Returns (emitted text, remaining format). -/
def goDirective (l : List Char) : String × List Char :=
  let l1 := goConsumeFlags l
  let a := goArgNumber l1
  let w := goScanWidth (!a.1) a.1 a.2
  let p := goScanPrec w.2.1 w.2.2.1 w.2.2.2
  let v := goScanVerb p.2.1 p.2.2.1 p.2.2.2
  (w.1 ++ p.1 ++ v.1, v.2)

/-- The scan loop of `doPrintf` with zero arguments. The fuel only bounds
the number of iterations: every iteration consumes at least one character,
so a fuel equal to the length of the format is exact (proved below as
`goSprintfLoop_congr`). -/
def goSprintfLoop : Nat → List Char → String
  | _, [] => ""
  | 0, _ :: _ => ""
  | fuel + 1, c :: rest =>
    if c = '%' then
      let d := goDirective rest
      d.1 ++ goSprintfLoop fuel d.2
    else String.singleton c ++ goSprintfLoop fuel rest

/-- `fmt.Sprintf(format)` with no arguments. -/
def goSprintfNoArgs (s : String) : String :=
  goSprintfLoop s.data.length s.data

/-- `status.Errorf(code, format)` with no further arguments:
`status.Error(code, fmt.Sprintf(format))` — the format pass mangles any
percent sequence in the message. -/
def statusErrorf (c : Code) (format : String) : StatusError :=
  { code := c, message := goSprintfNoArgs format }

/-- The constant from `errors.go`:
`UnauthenticatedError` is the fixed JSON string returned when a gRPC client
attempts to access the server without authenticating. The misspelling
`authorzation` is in the source constant. -/
def UnauthenticatedError : String :=
  "\x7b\"error\": \"no valid authorzation metadata field\"\x7d"

/-- `errUnauthorized` from `authority.go`:
`status.Errorf(codes.Unauthenticated, UnauthenticatedError)`. The constant
contains no percent, so the Sprintf pass leaves it unchanged (proved below
as `errUnauthorized_eq`). -/
def errUnauthorized : StatusError :=
  statusErrorf Code.Unauthenticated UnauthenticatedError

/-- `ErrUnauthenticatedContext` from `authority.go`: the sentinel error
returned from `GetAuthResult` on an unauthenticated context. -/
def ErrUnauthenticatedContext : GoError :=
  "cannot get AuthResult from unauthenticated context"

/-- `AuthResult` from `authority.go`: the result of authenticating a gRPC
client. `time.Time` is opaque to this layer and modelled as a `Nat`. -/
structure AuthResult where
  ClientIdentifier : String
  Timestamp : Nat
  Permissions : List String
  deriving DecidableEq, Repr

/-- `PermissionDeniedError` from `errors.go`: the JSON object included in a
permission-denied gRPC error response. Field order matters for the JSON
serialization. `ClientPermissions` is a Go `[]string`: `none` models the nil
slice (which `json.Marshal` renders as null), `some` a non-nil, possibly
empty slice (rendered as an array). -/
structure PermissionDeniedError where
  ClientIdentifier : String
  PermissionRequested : String
  ClientPermissions : Option (List String)
  deriving DecidableEq, Repr

/-- gRPC incoming metadata (`metadata.MD`): a map from header names to lists
of string values, modelled as an association list with lowercase keys (as
`metadata.Pairs` and the transport produce). -/
abbrev MD := List (String × List String)

/-- ASCII lowercasing of one character, as `strings.ToLower` acts on the
ASCII header names this package looks up. -/
def asciiLowerChar (c : Char) : Char :=
  if 65 ≤ c.toNat ∧ c.toNat ≤ 90 then Char.ofNat (c.toNat + 32) else c

/-- ASCII lowercasing of a header name (`strings.ToLower` on ASCII input). -/
def asciiLower (s : String) : String :=
  String.mk (s.data.map asciiLowerChar)

/-- `metadata.MD.Get`: looks up `md[strings.ToLower(k)]`; a missing key gives
the empty (nil) slice. -/
def MD.get (md : MD) (key : String) : List String :=
  match md.find? (fun p => p.1 == asciiLower key) with
  | some p => p.2
  | none => []

/-- The slice of a `context.Context` that this package reads and writes: the
metadata attached by the transport (`metadata.FromIncomingContext` reports
`ok = false` when absent, modelled by `none`), and the value stored under the
package-private `authContextKey` (unforgeable by outside callers, so it is
either absent or a genuine `AuthResult`). -/
structure Context where
  incomingMD : Option MD
  authValue : Option AuthResult
  deriving DecidableEq, Repr

/-- `GetAuthResult` from `authority.go`: returns the `AuthResult` attached to
a context, or `ErrUnauthenticatedContext` if none exists. -/
def GetAuthResult (ctx : Context) : Except GoError AuthResult :=
  match ctx.authValue with
  | none => Except.error ErrUnauthenticatedContext
  | some v => Except.ok v

/-- `AuthFunc` from `authority.go`: validates a gRPC request's metadata;
returns an error if authentication failed. -/
abbrev AuthFunc := MD → Except GoError AuthResult

/-- `PermissionFunc` from `authority.go`: decides if an authenticated client
may access a particular gRPC method. -/
abbrev PermissionFunc := List String → String → Bool

/-- `NoPermissions` from `authority.go`: permits a client unlimited access as
long as it has no permissions; fails if the client has permissions. -/
def NoPermissions (permissions : List String) (methodName : String) : Bool :=
  if permissions.length != 0 then false else true

/-- `defaultHasPermissions` from `authority.go`: scans the permission list
for an entry equal to the method name (early-return loop). -/
def defaultHasPermissions : List String → String → Bool
  | [], _ => false
  | permission :: rest, methodName =>
    if permission == methodName then true else defaultHasPermissions rest methodName

/-- The `authority` struct from `authority.go`. -/
structure authority where
  IsAuthenticated : AuthFunc
  HasPermissions : PermissionFunc

/-- `NewAuthority` from `authority.go`. Go function values are nilable, so
each strategy argument is an `Option`; the `panic` on a nil `authFunc` is
modelled by returning `none`, and a nil `permissionFunc` is replaced by
`defaultHasPermissions`. -/
def NewAuthority (authFunc : Option AuthFunc) (permissionFunc : Option PermissionFunc) :
    Option authority :=
  match authFunc with
  | none => none
  | some f =>
    some { IsAuthenticated := f,
           HasPermissions := match permissionFunc with
                             | none => defaultHasPermissions
                             | some p => p }

/-- `validateIncomingMetadata` from `authority.go`: requires exactly one
`authorization` metadata value. -/
def validateIncomingMetadata (md : MD) : Bool :=
  if (MD.get md "authorization").length != 1 then false else true

/-- Lowercase hexadecimal digit, as in Go's `encoding/json` hex table. -/
def hexDigitChar (n : Nat) : Char :=
  if n < 10 then Char.ofNat (48 + n) else Char.ofNat (87 + n)

/-- How Go's `encoding/json` (with its default HTML escaping) renders one
character inside a JSON string. -/
def goEscapeChar (c : Char) : String :=
  if c = '"' then "\\\""
  else if c = '\\' then "\\\\"
  else if c = '\n' then "\\n"
  else if c = '\r' then "\\r"
  else if c = '\t' then "\\t"
  else if c = '<' ∨ c = '>' ∨ c = '&' ∨ c.toNat < 32 then
    "\\u00" ++ String.mk [hexDigitChar (c.toNat / 16), hexDigitChar (c.toNat % 16)]
  else if c.toNat = 8232 then "\\u2028"
  else if c.toNat = 8233 then "\\u2029"
  else String.singleton c

/-- Go's `encoding/json` serialization of a string value. -/
def goQuoteString (s : String) : String :=
  "\"" ++ String.join (s.data.map goEscapeChar) ++ "\""

/-- Go's `encoding/json` serialization of a `[]string` value: the nil slice
renders as null, a non-nil slice (even empty) as an array. -/
def goMarshalStringSlice : Option (List String) → String
  | none => "null"
  | some xs => "[" ++ String.intercalate "," (xs.map goQuoteString) ++ "]"

/-- `json.Marshal` applied to a `PermissionDeniedError`: emits the three
fields in struct order under their tag names, and (like `json.Marshal`, whose
result is a byte slice and an error) returns the serialized bytes paired with
an error component, which for this struct is always `none`. -/
def goJsonMarshalPermissionDenied (e : PermissionDeniedError) :
    String × Option GoError :=
  ("\x7b\"clientIdentifier\":" ++ goQuoteString e.ClientIdentifier ++
   ",\"permissionRequested\":" ++ goQuoteString e.PermissionRequested ++
   ",\"clientPermissions\":" ++ goMarshalStringSlice e.ClientPermissions ++ "\x7d",
   none)

/-- `authenticateAndAuthorizeContext` from `authority.go`, parametrized by
the marshaling function standing for the external `json.Marshal` (whose error
result the source discards: `b, _ := json.Marshal(permissionDenied)`). The
denial is built by `status.Errorf(codes.PermissionDenied,
permissionDeniedJSON)`, so the JSON goes through the Sprintf format pass.
The embedded `AuthResult` carries a non-nil permission slice, injected into
the payload's `[]string` field with `some`. On failure the Go code returns
`(nil, err)`, modelled by `Except.error`. -/
def authenticateAndAuthorizeContextWith
    (marshal : PermissionDeniedError → String × Option GoError)
    (a : authority) (ctx : Context) (methodName : String) :
    Except StatusError Context :=
  match ctx.incomingMD with
  | none => Except.error errUnauthorized
  | some md =>
    if ! validateIncomingMetadata md then Except.error errUnauthorized
    else
      match a.IsAuthenticated md with
      | Except.error _ => Except.error errUnauthorized
      | Except.ok authResult =>
        if ! a.HasPermissions authResult.Permissions methodName then
          Except.error (statusErrorf Code.PermissionDenied
            (marshal
              { ClientIdentifier := authResult.ClientIdentifier,
                PermissionRequested := methodName,
                ClientPermissions := some authResult.Permissions }).1)
        else
          Except.ok { ctx with authValue := some authResult }

/-- `authenticateAndAuthorizeContext` with the real `json.Marshal` model. -/
def authenticateAndAuthorizeContext : authority → Context → String → Except StatusError Context :=
  authenticateAndAuthorizeContextWith goJsonMarshalPermissionDenied

/-- `UnaryServerInterceptor` from `authority.go`: on auth failure returns
`(nil, err)` without invoking the handler; on success returns the handler's
result (itself a Go `(interface, error)` pair, abstracted as `Resp`)
unchanged, invoked with the augmented context. -/
def UnaryServerInterceptor {Req Resp : Type} (a : authority) (ctx : Context) (req : Req)
    (fullMethod : String) (handler : Context → Req → Resp) : Except StatusError Resp :=
  match authenticateAndAuthorizeContext a ctx fullMethod with
  | Except.error err => Except.error err
  | Except.ok ctx2 => Except.ok (handler ctx2 req)

/-- A `grpc.ServerStream` as this package sees it: its context plus the rest
of the stream, opaque. `grpc_middleware.WrapServerStream` with
`WrappedContext = ctx` is replacing the `context` field. -/
structure ServerStream (σ : Type) where
  context : Context
  inner : σ
  deriving Repr

/-- `StreamServerInterceptor` from `authority.go`: on auth failure returns
the error without entering the handler; on success hands the handler the
stream wrapped with the augmented context and returns the handler's result
(a Go `error`, abstracted as `ρ`). -/
def StreamServerInterceptor {Srv σ ρ : Type} (a : authority) (srv : Srv)
    (stream : ServerStream σ) (fullMethod : String)
    (handler : Srv → ServerStream σ → ρ) : Except StatusError ρ :=
  match authenticateAndAuthorizeContext a stream.context fullMethod with
  | Except.error err => Except.error err
  | Except.ok ctx2 => Except.ok (handler srv { stream with context := ctx2 })

/-- Authentication fails for a call: no incoming metadata, malformed
metadata, or the authentication strategy returns an error. -/
def authFails (a : authority) (ctx : Context) : Prop :=
  ctx.incomingMD = none ∨
  (∃ md, ctx.incomingMD = some md ∧ validateIncomingMetadata md = false) ∨
  (∃ md e, ctx.incomingMD = some md ∧ validateIncomingMetadata md = true ∧
    a.IsAuthenticated md = Except.error e)

/-- The principal produced by the example strategies below (mirrors the
repository's test fixtures). -/
def exampleAuthResult : AuthResult :=
  { ClientIdentifier := "testClient", Timestamp := 0,
    Permissions := ["/server.ServiceName/MethodName"] }

/-- An authentication strategy that always succeeds with `exampleAuthResult`. -/
def exampleAuthOk : AuthFunc := fun _ => Except.ok exampleAuthResult

/-- An authentication strategy that always fails, with one failure reason. -/
def exampleAuthErrA : AuthFunc := fun _ => Except.error "token expired"

/-- An authentication strategy that always fails, with another reason. -/
def exampleAuthErrB : AuthFunc := fun _ => Except.error "signature mismatch"

/-- An authority with the always-succeeding strategy and the default
permission strategy. -/
def exampleAuthority : authority :=
  { IsAuthenticated := exampleAuthOk, HasPermissions := defaultHasPermissions }

/-- An authority whose authentication strategy fails with one reason. -/
def exampleAuthorityErrA : authority :=
  { IsAuthenticated := exampleAuthErrA, HasPermissions := defaultHasPermissions }

/-- An authority whose authentication strategy fails with another reason. -/
def exampleAuthorityErrB : authority :=
  { IsAuthenticated := exampleAuthErrB, HasPermissions := defaultHasPermissions }

/-- Metadata with exactly one authorization value. -/
def exampleMD : MD := [("authorization", ["bearer words"])]

/-- Metadata with two authorization values (malformed for this gate). -/
def exampleMDTwo : MD := [("authorization", ["bearer one", "bearer two"])]

/-- A context carrying well-formed incoming metadata and no auth value. -/
def exampleCtx : Context := { incomingMD := some exampleMD, authValue := none }

/-- A context with no incoming metadata at all. -/
def exampleCtxNoMD : Context := { incomingMD := none, authValue := none }

/-- A context whose metadata has two authorization values. -/
def exampleCtxTwo : Context := { incomingMD := some exampleMDTwo, authValue := none }

theorem goParsenum_length_le (l : List Char) (num : Nat) (isnum : Bool) :
    (goParsenum l num isnum).2.2.length ≤ l.length := by
  induction l generalizing num isnum with
  | nil => simp [goParsenum]
  | cons c rest ih =>
    unfold goParsenum
    split
    · split
      · simp
      · exact Nat.le_trans (ih _ _) (Nat.le_succ _)
    · exact Nat.le_refl _

theorem goConsumeFlags_length_le (l : List Char) :
    (goConsumeFlags l).length ≤ l.length := by
  induction l with
  | nil => simp [goConsumeFlags]
  | cons c rest ih =>
    unfold goConsumeFlags
    split
    · exact Nat.le_trans ih (Nat.le_succ _)
    · exact Nat.le_refl _

theorem goTail_length_le (l : List Char) : l.tail.length ≤ l.length := by
  rw [List.length_tail]
  exact Nat.sub_le _ _

theorem goArgNumber_length_le (l : List Char) :
    (goArgNumber l).2.length ≤ l.length := by
  unfold goArgNumber
  by_cases h : l.head? = some '['
  · rw [if_pos h]
    show (l.drop (goParseArgNumberSkip l)).length ≤ l.length
    rw [List.length_drop]
    exact Nat.sub_le _ _
  · rw [if_neg h]

theorem goScanWidth_length_le (g a : Bool) (l : List Char) :
    (goScanWidth g a l).2.2.2.length ≤ l.length := by
  unfold goScanWidth
  by_cases h : l.head? = some '*'
  · rw [if_pos h]
    exact goTail_length_le l
  · rw [if_neg h]
    exact goParsenum_length_le _ _ _

theorem goScanPrec_length_le (g a : Bool) (l : List Char) :
    (goScanPrec g a l).2.2.2.length ≤ l.length := by
  unfold goScanPrec
  have harg : (goArgNumber l.tail).2.length ≤ l.length :=
    Nat.le_trans (goArgNumber_length_le l.tail) (goTail_length_le l)
  by_cases h : l.head? = some '.' ∧ l.tail ≠ []
  · rw [if_pos h]
    by_cases h2 : (goArgNumber l.tail).2.head? = some '*'
    · rw [if_pos h2]
      exact Nat.le_trans (goTail_length_le _) harg
    · rw [if_neg h2]
      exact Nat.le_trans (goParsenum_length_le _ _ _) harg
  · rw [if_neg h]

theorem goVerbEmit_length_le (g : Bool) (l : List Char) :
    (goVerbEmit g l).2.length ≤ l.length := by
  cases l with
  | nil => exact Nat.le_refl _
  | cons v rest =>
    show (if v = '%' then (("%" : String), rest)
          else if g = true then ("%!" ++ String.singleton v ++ "(MISSING)", rest)
          else ("%!" ++ String.singleton v ++ "(BADINDEX)", rest)).2.length ≤
      (v :: rest).length
    by_cases h : v = '%'
    · rw [if_pos h]
      exact Nat.le_succ _
    · rw [if_neg h]
      by_cases h2 : g = true
      · rw [if_pos h2]
        exact Nat.le_succ _
      · rw [if_neg h2]
        exact Nat.le_succ _

theorem goScanVerb_length_le (g a : Bool) (l : List Char) :
    (goScanVerb g a l).2.length ≤ l.length := by
  unfold goScanVerb
  by_cases h : a = true
  · rw [if_pos h]
    exact goVerbEmit_length_le _ _
  · rw [if_neg h]
    exact Nat.le_trans (goVerbEmit_length_le _ _) (goArgNumber_length_le _)

theorem goDirective_length_le (l : List Char) :
    (goDirective l).2.length ≤ l.length := by
  unfold goDirective
  exact Nat.le_trans (goScanVerb_length_le _ _ _)
    (Nat.le_trans (goScanPrec_length_le _ _ _)
      (Nat.le_trans (goScanWidth_length_le _ _ _)
        (Nat.le_trans (goArgNumber_length_le _) (goConsumeFlags_length_le _))))

/-- The fuel of `goSprintfLoop` is irrelevant as long as it covers the
length of the format: in particular `goSprintfNoArgs` computes the
unbounded scan. -/
theorem goSprintfLoop_congr (fuel1 fuel2 : Nat) (l : List Char)
    (h1 : l.length ≤ fuel1) (h2 : l.length ≤ fuel2) :
    goSprintfLoop fuel1 l = goSprintfLoop fuel2 l := by
  induction fuel1 generalizing fuel2 l with
  | zero =>
    have : l = [] := List.length_eq_zero.mp (Nat.le_zero.mp h1)
    subst this
    cases fuel2 <;> rfl
  | succ fuel ih =>
    cases l with
    | nil => cases fuel2 <;> rfl
    | cons c rest =>
      cases fuel2 with
      | zero => exact absurd h2 (by simp)
      | succ fuel2 =>
        show (if c = '%' then
                let d := goDirective rest
                d.1 ++ goSprintfLoop fuel d.2
              else String.singleton c ++ goSprintfLoop fuel rest) =
             (if c = '%' then
                let d := goDirective rest
                d.1 ++ goSprintfLoop fuel2 d.2
              else String.singleton c ++ goSprintfLoop fuel2 rest)
        have hr : rest.length ≤ fuel := Nat.le_of_succ_le_succ h1
        have hr2 : rest.length ≤ fuel2 := Nat.le_of_succ_le_succ h2
        by_cases hc : c = '%'
        · rw [if_pos hc, if_pos hc]
          have hd := goDirective_length_le rest
          show (goDirective rest).1 ++ goSprintfLoop fuel (goDirective rest).2 =
            (goDirective rest).1 ++ goSprintfLoop fuel2 (goDirective rest).2
          rw [ih fuel2 (goDirective rest).2 (Nat.le_trans hd hr) (Nat.le_trans hd hr2)]
        · rw [if_neg hc, if_neg hc, ih fuel2 rest hr hr2]

/-- The fixed unauthenticated status: the constant message has no percent,
so the Sprintf pass inside `status.Errorf` leaves it intact. -/
theorem errUnauthorized_eq :
    errUnauthorized =
      { code := Code.Unauthenticated, message := UnauthenticatedError } := by
  decide

/-! Case lemmas for `authenticateAndAuthorizeContextWith`, one per path of
the source function. -/

theorem aaacWith_eq_of_no_md (marshal : PermissionDeniedError → String × Option GoError)
    (a : authority) (ctx : Context) (m : String) (h : ctx.incomingMD = none) :
    authenticateAndAuthorizeContextWith marshal a ctx m = Except.error errUnauthorized := by
  unfold authenticateAndAuthorizeContextWith
  rw [h]

theorem aaacWith_eq_of_invalid_md (marshal : PermissionDeniedError → String × Option GoError)
    (a : authority) (ctx : Context) (m : String) (md : MD)
    (h : ctx.incomingMD = some md) (hv : validateIncomingMetadata md = false) :
    authenticateAndAuthorizeContextWith marshal a ctx m = Except.error errUnauthorized := by
  unfold authenticateAndAuthorizeContextWith
  rw [h]
  simp [hv]

theorem aaacWith_eq_of_auth_error (marshal : PermissionDeniedError → String × Option GoError)
    (a : authority) (ctx : Context) (m : String) (md : MD) (e : GoError)
    (h : ctx.incomingMD = some md) (hv : validateIncomingMetadata md = true)
    (ha : a.IsAuthenticated md = Except.error e) :
    authenticateAndAuthorizeContextWith marshal a ctx m = Except.error errUnauthorized := by
  unfold authenticateAndAuthorizeContextWith
  rw [h]
  simp [hv, ha]

theorem aaacWith_eq_of_denied (marshal : PermissionDeniedError → String × Option GoError)
    (a : authority) (ctx : Context) (m : String) (md : MD) (r : AuthResult)
    (h : ctx.incomingMD = some md) (hv : validateIncomingMetadata md = true)
    (ha : a.IsAuthenticated md = Except.ok r)
    (hp : a.HasPermissions r.Permissions m = false) :
    authenticateAndAuthorizeContextWith marshal a ctx m =
      Except.error (statusErrorf Code.PermissionDenied
        (marshal ⟨r.ClientIdentifier, m, some r.Permissions⟩).1) := by
  unfold authenticateAndAuthorizeContextWith
  rw [h]
  simp [hv, ha, hp]

theorem aaacWith_eq_of_allowed (marshal : PermissionDeniedError → String × Option GoError)
    (a : authority) (ctx : Context) (m : String) (md : MD) (r : AuthResult)
    (h : ctx.incomingMD = some md) (hv : validateIncomingMetadata md = true)
    (ha : a.IsAuthenticated md = Except.ok r)
    (hp : a.HasPermissions r.Permissions m = true) :
    authenticateAndAuthorizeContextWith marshal a ctx m =
      Except.ok ⟨ctx.incomingMD, some r⟩ := by
  unfold authenticateAndAuthorizeContextWith
  rw [h]
  simp [hv, ha, hp]

/-- Exhaustive case description of `authenticateAndAuthorizeContextWith`:
either authentication failed and the result is the fixed unauthenticated
error, or authentication succeeded and the result is decided by the
permission strategy. -/
theorem aaacWith_cases (marshal : PermissionDeniedError → String × Option GoError)
    (a : authority) (ctx : Context) (m : String) :
    (authFails a ctx ∧
      authenticateAndAuthorizeContextWith marshal a ctx m = Except.error errUnauthorized) ∨
    (∃ md r, ctx.incomingMD = some md ∧ validateIncomingMetadata md = true ∧
      a.IsAuthenticated md = Except.ok r ∧
      ((a.HasPermissions r.Permissions m = false ∧
        authenticateAndAuthorizeContextWith marshal a ctx m =
          Except.error (statusErrorf Code.PermissionDenied
            (marshal ⟨r.ClientIdentifier, m, some r.Permissions⟩).1)) ∨
       (a.HasPermissions r.Permissions m = true ∧
        authenticateAndAuthorizeContextWith marshal a ctx m =
          Except.ok ⟨ctx.incomingMD, some r⟩))) := by
  cases hmd : ctx.incomingMD with
  | none =>
    exact Or.inl ⟨Or.inl hmd, aaacWith_eq_of_no_md marshal a ctx m hmd⟩
  | some md =>
    cases hv : validateIncomingMetadata md with
    | false =>
      exact Or.inl ⟨Or.inr (Or.inl ⟨md, hmd, hv⟩),
        aaacWith_eq_of_invalid_md marshal a ctx m md hmd hv⟩
    | true =>
      cases ha : a.IsAuthenticated md with
      | error e =>
        exact Or.inl ⟨Or.inr (Or.inr ⟨md, e, hmd, hv, ha⟩),
          aaacWith_eq_of_auth_error marshal a ctx m md e hmd hv ha⟩
      | ok r =>
        cases hp : a.HasPermissions r.Permissions m with
        | false =>
          exact Or.inr ⟨md, r, rfl, hv, ha,
            Or.inl ⟨hp, aaacWith_eq_of_denied marshal a ctx m md r hmd hv ha hp⟩⟩
        | true =>
          exact Or.inr ⟨md, r, rfl, hv, ha,
            Or.inr ⟨hp, hmd ▸ aaacWith_eq_of_allowed marshal a ctx m md r hmd hv ha hp⟩⟩

/-- `authFails` implies the fixed unauthenticated rejection. -/
theorem aaacWith_eq_of_authFails (marshal : PermissionDeniedError → String × Option GoError)
    (a : authority) (ctx : Context) (m : String) (h : authFails a ctx) :
    authenticateAndAuthorizeContextWith marshal a ctx m = Except.error errUnauthorized := by
  rcases h with h | ⟨md, hmd, hv⟩ | ⟨md, e, hmd, hv, ha⟩
  · exact aaacWith_eq_of_no_md marshal a ctx m h
  · exact aaacWith_eq_of_invalid_md marshal a ctx m md hmd hv
  · exact aaacWith_eq_of_auth_error marshal a ctx m md e hmd hv ha

/-- Unfolding equation for `authenticateAndAuthorizeContext`. -/
theorem authenticateAndAuthorizeContext_def (a : authority) (ctx : Context) (m : String) :
    authenticateAndAuthorizeContext a ctx m =
      authenticateAndAuthorizeContextWith goJsonMarshalPermissionDenied a ctx m := rfl

/-- Claim C1: for every call processed by `authenticateAndAuthorizeContext`,
a principal is bound into the returned context only when both the
authentication strategy succeeded and the permission strategy returned true
for the target method; on every failure path the call returns an error and no
context (so no principal is carried), and the terminal outcome is exactly one
of: success with a bound principal, an Unauthenticated status error with the
fixed message, or a PermissionDenied status error. -/
theorem authenticateAndAuthorizeContext_outcomes (a : authority) (ctx : Context) (m : String) :
    (∀ ctx2, authenticateAndAuthorizeContext a ctx m = Except.ok ctx2 →
      ∃ md r, ctx.incomingMD = some md ∧ validateIncomingMetadata md = true ∧
        a.IsAuthenticated md = Except.ok r ∧ a.HasPermissions r.Permissions m = true ∧
        ctx2.authValue = some r) ∧
    ((∃ ctx2 r, authenticateAndAuthorizeContext a ctx m = Except.ok ctx2 ∧
        ctx2.authValue = some r) ∨
      authenticateAndAuthorizeContext a ctx m =
        Except.error { code := Code.Unauthenticated, message := UnauthenticatedError } ∨
      (∃ msg, authenticateAndAuthorizeContext a ctx m =
        Except.error { code := Code.PermissionDenied, message := msg })) := by
  constructor
  · intro ctx2 h
    rw [authenticateAndAuthorizeContext_def] at h
    rcases aaacWith_cases goJsonMarshalPermissionDenied a ctx m with
      ⟨_, he⟩ | ⟨md, r, hmd, hv, ha, ⟨hp, he⟩ | ⟨hp, he⟩⟩
    · rw [he] at h
      simp at h
    · rw [he] at h
      simp at h
    · rw [he] at h
      refine ⟨md, r, hmd, hv, ha, hp, ?_⟩
      have h2 : (⟨ctx.incomingMD, some r⟩ : Context) = ctx2 := by
        injection h
      rw [← h2]
  · rcases aaacWith_cases goJsonMarshalPermissionDenied a ctx m with
      ⟨_, he⟩ | ⟨md, r, hmd, hv, ha, ⟨hp, he⟩ | ⟨hp, he⟩⟩
    · exact Or.inr (Or.inl (by rw [authenticateAndAuthorizeContext_def, he, errUnauthorized_eq]))
    · exact Or.inr (Or.inr ⟨goSprintfNoArgs (goJsonMarshalPermissionDenied
        ⟨r.ClientIdentifier, m, some r.Permissions⟩).1,
        by rw [authenticateAndAuthorizeContext_def, he]; rfl⟩)
    · exact Or.inl ⟨⟨ctx.incomingMD, some r⟩, r,
        by rw [authenticateAndAuthorizeContext_def, he], rfl⟩

/-- Claim C2: any two calls whose authentication fails — absent metadata,
malformed metadata, or a strategy error, regardless of which error — produce
the identical Unauthenticated status error with the same fixed constant
message; the rejections are indistinguishable. -/
theorem authFailures_indistinguishable (a1 a2 : authority) (ctx1 ctx2 : Context)
    (m1 m2 : String) (h1 : authFails a1 ctx1) (h2 : authFails a2 ctx2) :
    authenticateAndAuthorizeContext a1 ctx1 m1 =
      Except.error { code := Code.Unauthenticated, message := UnauthenticatedError } ∧
    authenticateAndAuthorizeContext a1 ctx1 m1 =
      authenticateAndAuthorizeContext a2 ctx2 m2 := by
  have e1 := aaacWith_eq_of_authFails goJsonMarshalPermissionDenied a1 ctx1 m1 h1
  have e2 := aaacWith_eq_of_authFails goJsonMarshalPermissionDenied a2 ctx2 m2 h2
  rw [authenticateAndAuthorizeContext_def, authenticateAndAuthorizeContext_def]
  exact ⟨e1, e1.trans e2.symm⟩

/-- Witness for C2: one strategy failing with reason A on valid metadata and
another failing with reason B on a call with no metadata at all are rejected
identically. -/
theorem authFailures_indistinguishable_witness :
    authenticateAndAuthorizeContext exampleAuthorityErrA exampleCtx "/server.ServiceName/MethodName" =
      Except.error { code := Code.Unauthenticated, message := UnauthenticatedError } ∧
    authenticateAndAuthorizeContext exampleAuthorityErrA exampleCtx "/server.ServiceName/MethodName" =
      authenticateAndAuthorizeContext exampleAuthorityErrB exampleCtxNoMD "/other.Service/Method" :=
  authFailures_indistinguishable exampleAuthorityErrA exampleAuthorityErrB
    exampleCtx exampleCtxNoMD "/server.ServiceName/MethodName" "/other.Service/Method"
    (Or.inr (Or.inr ⟨exampleMD, "token expired", rfl, by decide, rfl⟩))
    (Or.inl rfl)

/-- Claim C3: the default permission strategy `defaultHasPermissions` (bound
when no permission strategy is supplied to `NewAuthority`) returns true if
and only if the method name is literally an element of the permission list by
exact string equality — no wildcarding or prefix matching. -/
theorem defaultHasPermissions_iff_mem (P : List String) (M : String) :
    (defaultHasPermissions P M = true ↔ M ∈ P) ∧
    (∀ f : AuthFunc, NewAuthority (some f) none =
      some { IsAuthenticated := f, HasPermissions := defaultHasPermissions }) := by
  constructor
  · induction P with
    | nil => simp [defaultHasPermissions]
    | cons p rest ih =>
      by_cases h : p = M
      · simp [defaultHasPermissions, h]
      · simp only [defaultHasPermissions, beq_iff_eq, h, if_false, ih, List.mem_cons]
        constructor
        · exact Or.inr
        · rintro (h2 | h2)
          · exact absurd h2.symm h
          · exact h2
  · intro f
    rfl

/-- Claim C5: for both interceptors, authenticate-and-authorize runs before
the handler: on failure the handler is never invoked (the result is the
structured error, the same for every handler) and on success the handler runs
with the augmented context — the unary handler's result is returned
unchanged, and the stream is handed over with its context replaced by the
augmented one. -/
theorem interceptors_gate_handler {Req Resp Srv σ ρ : Type} (a : authority)
    (ctx : Context) (req : Req) (stream : ServerStream σ) (srv : Srv) (m : String) :
    (∀ e, authenticateAndAuthorizeContext a ctx m = Except.error e →
      ∀ handler : Context → Req → Resp,
        UnaryServerInterceptor a ctx req m handler = Except.error e) ∧
    (∀ ctx2, authenticateAndAuthorizeContext a ctx m = Except.ok ctx2 →
      ∀ handler : Context → Req → Resp,
        UnaryServerInterceptor a ctx req m handler = Except.ok (handler ctx2 req)) ∧
    (∀ e, authenticateAndAuthorizeContext a stream.context m = Except.error e →
      ∀ handler : Srv → ServerStream σ → ρ,
        StreamServerInterceptor a srv stream m handler = Except.error e) ∧
    (∀ ctx2, authenticateAndAuthorizeContext a stream.context m = Except.ok ctx2 →
      ∀ handler : Srv → ServerStream σ → ρ,
        StreamServerInterceptor a srv stream m handler =
          Except.ok (handler srv { context := ctx2, inner := stream.inner })) := by
  refine ⟨?_, ?_, ?_, ?_⟩
  · intro e h handler
    unfold UnaryServerInterceptor
    rw [h]
  · intro ctx2 h handler
    unfold UnaryServerInterceptor
    rw [h]
  · intro e h handler
    unfold StreamServerInterceptor
    rw [h]
  · intro ctx2 h handler
    unfold StreamServerInterceptor
    rw [h]

/-- Claim C6: the NoPermissions strategy returns true if and only if the
permission list is empty, regardless of the method name. -/
theorem NoPermissions_iff_empty (P : List String) (M : String) :
    NoPermissions P M = true ↔ P = [] := by
  unfold NoPermissions
  cases P <;> simp

/-- Claim C7: GetAuthResult on any context never touched by the Authority
(no principal bound under the private key) returns the sentinel
ErrUnauthenticatedContext — it is total, so it cannot panic, and it never
returns a default or empty principal; and on a context returned by a
successful authenticate-and-authorize it returns exactly the principal
produced by the authentication strategy. -/
theorem GetAuthResult_spec (a : authority) (ctx ctx2 : Context) (md : MD) (r : AuthResult)
    (m : String) (hmd : ctx.incomingMD = some md)
    (ha : a.IsAuthenticated md = Except.ok r)
    (h : authenticateAndAuthorizeContext a ctx m = Except.ok ctx2) :
    (∀ c : Context, c.authValue = none →
      GetAuthResult c = Except.error ErrUnauthenticatedContext) ∧
    GetAuthResult ctx2 = Except.ok r := by
  constructor
  · intro c hc
    unfold GetAuthResult
    rw [hc]
  · rw [authenticateAndAuthorizeContext_def] at h
    rcases aaacWith_cases goJsonMarshalPermissionDenied a ctx m with
      ⟨_, he⟩ | ⟨md2, r2, hmd2, hv2, ha2, ⟨hp2, he⟩ | ⟨hp2, he⟩⟩
    · rw [he] at h
      simp at h
    · rw [he] at h
      simp at h
    · rw [he] at h
      have hctx : (⟨ctx.incomingMD, some r2⟩ : Context) = ctx2 := by injection h
      have hmdeq : md = md2 := by
        have h3 := hmd.symm.trans hmd2
        injection h3
      have hreq : r2 = r := by
        rw [← hmdeq] at ha2
        have h4 := ha.symm.trans ha2
        injection h4 with h5
        exact h5.symm
      rw [← hctx, hreq]
      rfl

/-- Witness for C7 at a concrete successful call. -/
theorem GetAuthResult_spec_witness :
    (∀ c : Context, c.authValue = none →
      GetAuthResult c = Except.error ErrUnauthenticatedContext) ∧
    GetAuthResult ⟨some exampleMD, some exampleAuthResult⟩ = Except.ok exampleAuthResult :=
  GetAuthResult_spec exampleAuthority exampleCtx ⟨some exampleMD, some exampleAuthResult⟩
    exampleMD exampleAuthResult "/server.ServiceName/MethodName" rfl rfl (by rfl)

/-- Claim C8: NewAuthority fails fatally (modelled by `none`) if and only if
the authentication strategy argument is nil; with a nil permission strategy
and a non-nil authentication strategy it binds the default permission
strategy in place of the nil one. -/
theorem NewAuthority_spec (f : AuthFunc) (p : PermissionFunc) :
    (∀ q : Option PermissionFunc, NewAuthority none q = none) ∧
    (∀ q : Option PermissionFunc, NewAuthority (some f) q ≠ none) ∧
    NewAuthority (some f) none =
      some { IsAuthenticated := f, HasPermissions := defaultHasPermissions } ∧
    NewAuthority (some f) (some p) =
      some { IsAuthenticated := f, HasPermissions := p } := by
  refine ⟨fun q => rfl, ?_, rfl, rfl⟩
  intro q h
  cases q <;> simp [NewAuthority] at h

/-- Claim C9: the error result of serializing the permission-denied payload
never alters the outcome: the function behaves identically under a marshaler
whose error component is erased, on the denial path the already-decided
PermissionDenied status is still returned — built by `status.Errorf` from
whatever (best-effort) bytes the marshaler produced — and the concrete
`json.Marshal` model never errors (the source discards the error:
`b, _ := json.Marshal(permissionDenied)`). -/
theorem marshal_error_never_alters_outcome
    (marshal : PermissionDeniedError → String × Option GoError)
    (a : authority) (ctx : Context) (m : String) :
    authenticateAndAuthorizeContextWith marshal a ctx m =
      authenticateAndAuthorizeContextWith (fun e => ((marshal e).1, none)) a ctx m ∧
    (∀ md r, ctx.incomingMD = some md → validateIncomingMetadata md = true →
      a.IsAuthenticated md = Except.ok r → a.HasPermissions r.Permissions m = false →
      authenticateAndAuthorizeContextWith marshal a ctx m =
        Except.error (statusErrorf Code.PermissionDenied
          (marshal ⟨r.ClientIdentifier, m, some r.Permissions⟩).1)) ∧
    (∀ e, (goJsonMarshalPermissionDenied e).2 = none) := by
  refine ⟨?_, ?_, fun e => rfl⟩
  · unfold authenticateAndAuthorizeContextWith
    cases hmd : ctx.incomingMD with
    | none => rfl
    | some md =>
      cases hv : validateIncomingMetadata md with
      | false => simp [hv]
      | true =>
        cases ha : a.IsAuthenticated md with
        | error e => simp [hv, ha]
        | ok r =>
          cases hp : a.HasPermissions r.Permissions m with
          | false => simp [hv, ha, hp]
          | true => simp [hv, ha, hp]
  · intro md r hmd hv ha hp
    exact aaacWith_eq_of_denied marshal a ctx m md r hmd hv ha hp

/-- Claim C10: when the metadata does not contain exactly one value for the
authorization header (zero, or two or more), the call is rejected with the
fixed Unauthenticated error and the authentication strategy is never invoked:
the result is the same for any two authorities, whatever their strategies. -/
theorem metadata_prevalidation_rejects (a1 a2 : authority) (ctx : Context) (md : MD)
    (m : String) (hmd : ctx.incomingMD = some md)
    (hlen : (MD.get md "authorization").length ≠ 1) :
    authenticateAndAuthorizeContext a1 ctx m = Except.error errUnauthorized ∧
    authenticateAndAuthorizeContext a1 ctx m = authenticateAndAuthorizeContext a2 ctx m := by
  have hv : validateIncomingMetadata md = false := by
    unfold validateIncomingMetadata
    simp [bne_iff_ne, hlen]
  have e1 := aaacWith_eq_of_invalid_md goJsonMarshalPermissionDenied a1 ctx m md hmd hv
  have e2 := aaacWith_eq_of_invalid_md goJsonMarshalPermissionDenied a2 ctx m md hmd hv
  rw [authenticateAndAuthorizeContext_def, authenticateAndAuthorizeContext_def]
  exact ⟨e1, e1.trans e2.symm⟩

/-- Witness for C10: metadata carrying two authorization values is rejected
identically under an always-succeeding and an always-failing strategy. -/
theorem metadata_prevalidation_rejects_witness :
    authenticateAndAuthorizeContext exampleAuthority exampleCtxTwo "/server.ServiceName/MethodName" =
      Except.error errUnauthorized ∧
    authenticateAndAuthorizeContext exampleAuthority exampleCtxTwo "/server.ServiceName/MethodName" =
      authenticateAndAuthorizeContext exampleAuthorityErrA exampleCtxTwo "/server.ServiceName/MethodName" :=
  metadata_prevalidation_rejects exampleAuthority exampleAuthorityErrA exampleCtxTwo
    exampleMDTwo "/server.ServiceName/MethodName" rfl (by decide)

end GrpcAuth
